import Mathlib

/-!
# Verification of the `q` streaming turn processor, permission engine,
# session store and markdown renderer

Shallow embedding of the TypeScript sources:
* `src/commands/agent.ts` — risk assessment, approval prompt, streaming
  assistant-message processing, result handling (`part_006`);
* `src/commands/shared.ts` — permission handler factory (`part_006`);
* `src/lib/storage.ts` — SQLite session store (`part_007`);
* `src/lib/markdown.ts` — terminal markdown renderer (`part_011`);
* `src/lib/format.ts`, `src/lib/colors.ts` — tool-call formatting helpers.

JavaScript strings are modelled as Lean `String`s (sequences of characters);
`s.slice(n)` is modelled by dropping `n` characters.  JavaScript numbers used
for costs are modelled as rationals; token counts as integers.  Interactive
effects (stdout writes, `console.log` lines, prompt invocations, dry-run
logging) are reified as explicit event lists.
-/

namespace Q

/-! ## JS string helpers -/

/-- JS `s.slice(n)`: drop the first `n` characters. -/
def jsSliceFrom (s : String) (n : Nat) : String := ⟨s.data.drop n⟩

/-- JS `s.slice(0, n)`: take the first `n` characters. -/
def jsSliceTo (s : String) (n : Nat) : String := ⟨s.data.take n⟩

/-- JS `s.toLowerCase()` (ASCII case folding). -/
def jsToLower (s : String) : String := ⟨s.data.map Char.toLower⟩

/-- JS `s.trim()`: strip leading and trailing whitespace. -/
def jsTrim (s : String) : String :=
  ⟨((s.data.dropWhile Char.isWhitespace).reverse.dropWhile Char.isWhitespace).reverse⟩

/-! ## Regular-expression interpreter

`agent.ts` classifies shell commands with JS `RegExp.test`.  We embed the
regular expressions used there as an explicit syntax tree and a positional
matcher.  `matchAt s ic fuel r i` returns the list of end positions of
matches of `r` starting at position `i` of `s`; `ic` is the `/i` flag.
The fuel argument only bounds recursion depth and is chosen large enough
for every concrete test below. -/

/-- JS `\w`: ASCII letters, digits and underscore. -/
def isWordChar (c : Char) : Bool := c.isAlphanum || c = '_'

/-- JS `\s` (restricted to the ASCII whitespace that can occur in the
commands being classified). -/
def isSpaceChar (c : Char) : Bool :=
  c = ' ' || c = '\t' || c = '\n' || c = '\r' || c = '\x0b' || c = '\x0c'

/-- Syntax of the regular expressions used by the risk patterns. -/
inductive Regex where
  | eps
  | ch (c : Char)
  | dot
  | ws
  | wb
  | seq (r1 r2 : Regex)
  | alt (r1 r2 : Regex)
  | star (r : Regex)
deriving Repr

/-- Size of a regex, used to pick a sufficient fuel. -/
def rsize : Regex → Nat
  | .eps => 1
  | .ch _ => 1
  | .dot => 1
  | .ws => 1
  | .wb => 1
  | .seq r1 r2 => 1 + rsize r1 + rsize r2
  | .alt r1 r2 => 1 + rsize r1 + rsize r2
  | .star r => 1 + rsize r

/-- Character comparison honouring the `/i` flag. -/
def charEqCI (ic : Bool) (a b : Char) : Bool :=
  if ic then a.toLower = b.toLower else a = b

def charAt? (s : List Char) (i : Nat) : Option Char := s.get? i

/-- JS `\b`: position between a word char and a non-word char (string
edges count as non-word). -/
def wordBoundaryAt (s : List Char) (i : Nat) : Bool :=
  let before :=
    match i with
    | 0 => false
    | Nat.succ j =>
      match charAt? s j with
      | some c => isWordChar c
      | none => false
  let after :=
    match charAt? s i with
    | some c => isWordChar c
    | none => false
  before != after

/-- Positional matcher: end positions of matches of `r` at position `i`. -/
def matchAt (s : List Char) (ic : Bool) : Nat → Regex → Nat → List Nat
  | 0, _, _ => []
  | fuel + 1, r, i =>
    match r with
    | .eps => [i]
    | .ch c =>
      match charAt? s i with
      | some d => if charEqCI ic c d then [i + 1] else []
      | none => []
    | .dot =>
      match charAt? s i with
      | some d => if d = '\n' || d = '\r' then [] else [i + 1]
      | none => []
    | .ws =>
      match charAt? s i with
      | some d => if isSpaceChar d then [i + 1] else []
      | none => []
    | .wb => if wordBoundaryAt s i then [i] else []
    | .seq r1 r2 =>
      ((matchAt s ic fuel r1 i).map (fun j => matchAt s ic fuel r2 j)).flatten
    | .alt r1 r2 => matchAt s ic fuel r1 i ++ matchAt s ic fuel r2 i
    | .star r1 =>
      i :: (((matchAt s ic fuel r1 i).filter (fun j => i < j)).map
        (fun j => matchAt s ic fuel (.star r1) j)).flatten

/-- Regex sugar `r?`. -/
def ropt (r : Regex) : Regex := .alt r .eps

/-- Regex sugar `r+`. -/
def rplus (r : Regex) : Regex := .seq r (.star r)

/-- A literal string. -/
def rlit (s : String) : Regex :=
  s.data.foldr (fun c acc => Regex.seq (.ch c) acc) .eps

/-- JS `RegExp.test`: unanchored search over all start positions. -/
def rtest (pr : Regex × Bool) (cmd : String) : Bool :=
  let cs := cmd.data
  let fuel := 2 * (cs.length + rsize pr.1 + 4)
  (List.range (cs.length + 1)).any (fun i => !(matchAt cs pr.2 fuel pr.1 i).isEmpty)

/-! ## Risk patterns (`agent.ts` lines 28–48)

Each pattern is paired with its `/i` flag. -/

/-- Embeds `HIGH_RISK_PATTERNS` from `agent.ts`. -/
def HIGH_RISK_PATTERNS : List (Regex × Bool) :=
  [ -- /\brm\s+(-rf?|--recursive)/i
    (.seq .wb (.seq (rlit "rm") (.seq (rplus .ws)
      (.alt (.seq (rlit "-r") (ropt (.ch 'f'))) (rlit "--recursive")))), true)
  , -- /\bsudo\b/i
    (.seq .wb (.seq (rlit "sudo") .wb), true)
  , -- /\bchmod\s+777\b/
    (.seq .wb (.seq (rlit "chmod") (.seq (rplus .ws) (.seq (rlit "777") .wb))), false)
  , -- /\b(dd|mkfs|fdisk)\b/i
    (.seq .wb (.seq (.alt (rlit "dd") (.alt (rlit "mkfs") (rlit "fdisk"))) .wb), true)
  , -- />\s*\/dev\//
    (.seq (.ch '>') (.seq (.star .ws) (rlit "/dev/")), false)
  , -- /\bkill\s+-9/
    (.seq .wb (.seq (rlit "kill") (.seq (rplus .ws) (rlit "-9"))), false)
  , -- /\bgit\s+push\s+.*--force/i
    (.seq .wb (.seq (rlit "git") (.seq (rplus .ws) (.seq (rlit "push")
      (.seq (rplus .ws) (.seq (.star .dot) (rlit "--force")))))), true)
  , -- /\bgit\s+reset\s+--hard/i
    (.seq .wb (.seq (rlit "git") (.seq (rplus .ws) (.seq (rlit "reset")
      (.seq (rplus .ws) (rlit "--hard"))))), true)
  ]

/-- Embeds `MEDIUM_RISK_PATTERNS` from `agent.ts`. -/
def MEDIUM_RISK_PATTERNS : List (Regex × Bool) :=
  [ -- /\brm\b/i
    (.seq .wb (.seq (rlit "rm") .wb), true)
  , -- /\bmv\b/i
    (.seq .wb (.seq (rlit "mv") .wb), true)
  , -- /\bchmod\b/i
    (.seq .wb (.seq (rlit "chmod") .wb), true)
  , -- /\bchown\b/i
    (.seq .wb (.seq (rlit "chown") .wb), true)
  , -- /\bgit\s+(push|reset|rebase)/i
    (.seq .wb (.seq (rlit "git") (.seq (rplus .ws)
      (.alt (rlit "push") (.alt (rlit "reset") (rlit "rebase"))))), true)
  , -- /\bnpm\s+(publish|unpublish)/i
    (.seq .wb (.seq (rlit "npm") (.seq (rplus .ws)
      (.alt (rlit "publish") (rlit "unpublish")))), true)
  , -- /\bcurl\b.*\|\s*(bash|sh)/i
    (.seq .wb (.seq (rlit "curl") (.seq .wb (.seq (.star .dot)
      (.seq (.ch '|') (.seq (.star .ws) (.alt (rlit "bash") (rlit "sh"))))))), true)
  ]

/-! ## Tool inputs

Tool inputs are JSON objects whose fields (the ones this program ever
reads: `command`, `file_path`, `pattern`, `path`, ...) are strings. -/

structure JsonObj where
  fields : List (String × String)
deriving DecidableEq, Repr

/-- JS property access `input.k` (as a string-valued field). -/
def JsonObj.get (o : JsonObj) (k : String) : Option String :=
  (o.fields.find? (fun kv => kv.1 == k)).map (fun kv => kv.2)

/-- Embeds `JSON.stringify` for our string-valued objects. -/
def jsonStringify (o : JsonObj) : String :=
  "\x7b" ++ String.intercalate ","
    (o.fields.map (fun kv => "\"" ++ kv.1 ++ "\":\"" ++ kv.2 ++ "\"")) ++ "\x7d"

/-! ## `assessRisk` (`agent.ts` lines 55–90) -/

inductive RiskLevel where
  | low
  | medium
  | high
deriving DecidableEq, Repr

structure RiskAssessment where
  level : RiskLevel
  reason : Option String
deriving DecidableEq, Repr

def assessRisk (toolName : String) (input : JsonObj) : RiskAssessment :=
  if toolName = "Bash" then
    -- const cmd = String(input.command ?? '')
    let cmd := (input.get "command").getD ""
    if HIGH_RISK_PATTERNS.any (fun pr => rtest pr cmd) then
      { level := .high, reason := some "Potentially destructive command" }
    else if MEDIUM_RISK_PATTERNS.any (fun pr => rtest pr cmd) then
      { level := .medium, reason := some "May modify files or system state" }
    else
      { level := .low, reason := some "Runs a shell command" }
  else if toolName = "Write" then
    { level := .medium, reason := some "Creates or overwrites a file" }
  else if toolName = "Edit" || toolName = "MultiEdit" then
    { level := .low, reason := some "Modifies existing file content" }
  else if toolName = "NotebookEdit" then
    { level := .low, reason := some "Modifies Jupyter notebook" }
  else
    { level := .low, reason := none }

/-! ## `promptToolApproval` (`agent.ts` lines 109–170)

The interactive read is modelled by passing the user's typed answer as an
argument; the function returns the resolved `{approved, message}` value.
The display side effects of the prompt do not influence the decision and
are not modelled here. -/

structure ApprovalResult where
  approved : Bool
  message : Option String
deriving DecidableEq, Repr

/-- The decision logic of the `rl.question` callback (`agent.ts` 153–168),
as a function of the assessed risk level and the raw answer. -/
def promptAnswerDecision (riskLevel : RiskLevel) (answer : String) : ApprovalResult :=
  let lower := jsTrim (jsToLower answer)
  if lower = "y" || lower = "yes" then
    { approved := true, message := none }
  else if decide (riskLevel ≠ RiskLevel.high) && (lower = "a" || lower = "always") then
    { approved := true, message := some "always" }
  else if lower = "" && riskLevel = RiskLevel.low then
    { approved := true, message := none }
  else
    { approved := false, message := some "User denied" }

/-- Embeds `promptToolApproval`, with the user answer made explicit. -/
def promptToolApproval (answer : String) (toolName : String) (input : JsonObj) :
    ApprovalResult :=
  promptAnswerDecision (assessRisk toolName input).level answer

/-! ## Colors (`colors.ts`) and tool-call formatting (`format.ts`)

Whether ANSI colors are enabled depends on the process environment
(`NO_COLOR`, `FORCE_COLOR`, TTY); it is passed in explicitly as `colorOn`. -/

def ansiReset : String := "\x1b[0m"
def ansiPurple : String := "\x1b[38;2;225;53;255m"
def ansiCyan : String := "\x1b[38;2;128;255;234m"
def ansiCoral : String := "\x1b[38;2;255;106;193m"
def ansiYellow : String := "\x1b[38;2;241;250;140m"
def ansiGreen : String := "\x1b[38;2;80;250;123m"
def ansiRed : String := "\x1b[38;2;255;99;99m"
def ansiMuted : String := "\x1b[38;2;139;133;160m"
def ansiBold : String := "\x1b[1m"
def ansiDim : String := "\x1b[2m"

/-- Embeds `color(text, ...styles)` from `colors.ts`. -/
def colorStr (colorOn : Bool) (codes : List String) (text : String) : String :=
  if colorOn then String.join codes ++ text ++ ansiReset else text

/-- Embeds `semantic.muted`. -/
def semanticMuted (colorOn : Bool) (text : String) : String :=
  colorStr colorOn [ansiMuted] text

/-- Embeds `TOOL_ICONS` from `format.ts`. -/
def TOOL_ICONS : List (String × String) :=
  [("Read", "◈"), ("Glob", "◇"), ("Grep", "◆"), ("Bash", "▶"), ("Write", "◁"),
   ("Edit", "◂"), ("MultiEdit", "◂"), ("Task", "●"), ("WebFetch", "◎"), ("WebSearch", "◎")]

def TRUNCATE_LENGTH : Nat := 60

def SEPARATOR_WIDTH : Nat := 60

/-- Embeds `formatToolCall` from `format.ts`.  Fields that are interpolated while
absent are rendered as JS renders `undefined` in a template literal. -/
def formatToolCall (colorOn : Bool) (toolName : String) (input : JsonObj) : String :=
  let icon := ((TOOL_ICONS.find? (fun kv => kv.1 == toolName)).map (fun kv => kv.2)).getD "▸"
  let toolColor := colorStr colorOn [ansiCoral, ansiBold] toolName
  let inputSummary :=
    if toolName = "Read" then
      colorStr colorOn [ansiCyan] ((input.get "file_path").getD "undefined")
    else if toolName = "Glob" then
      colorStr colorOn [ansiYellow] ((input.get "pattern").getD "undefined") ++
        (match input.get "path" with
          | some p => if p ≠ "" then " in " ++ colorStr colorOn [ansiCyan] p else ""
          | none => "")
    else if toolName = "Grep" then
      colorStr colorOn [ansiYellow] ("\"" ++ (input.get "pattern").getD "undefined" ++ "\"") ++
        (match input.get "path" with
          | some p => if p ≠ "" then " in " ++ colorStr colorOn [ansiCyan] p else ""
          | none => "")
    else if toolName = "Bash" then
      let cmd := (input.get "command").getD ""
      colorStr colorOn [ansiCyan]
        (jsSliceTo cmd TRUNCATE_LENGTH ++ (if cmd.length > TRUNCATE_LENGTH then "..." else ""))
    else if toolName = "Write" || toolName = "Edit" || toolName = "MultiEdit" then
      colorStr colorOn [ansiCyan] ((input.get "file_path").getD "undefined")
    else if toolName = "Task" then
      colorStr colorOn [ansiPurple]
        (jsSliceTo (((input.get "description").orElse (fun _ => input.get "prompt")).getD "")
          TRUNCATE_LENGTH)
    else
      semanticMuted colorOn (jsSliceTo (jsonStringify input) TRUNCATE_LENGTH)
  "  " ++ icon ++ " " ++ toolColor ++ " " ++ inputSummary

/-! ## Streaming turn processor state (`agent.ts` lines 172–224)

Terminal effects are reified: `TermOut.write` is `process.stdout.write`,
`TermOut.logLine` is `console.log` (with `logLine ""` for the bare
`console.log()`). -/

inductive ContentBlock where
  | text (s : String)
  | toolUse (name : String) (input : JsonObj)
deriving DecidableEq, Repr

structure StreamState where
  fullText : String
  lastShownText : String
  toolCount : Nat
  hasShownTools : Bool
  seenTools : List String
deriving DecidableEq, Repr

def initState : StreamState :=
  { fullText := "", lastShownText := "", toolCount := 0,
    hasShownTools := false, seenTools := [] }

inductive TermOut where
  | write (s : String)
  | logLine (s : String)
deriving DecidableEq, Repr

/-- Dedup key: `` `${name}:${JSON.stringify(input)}` ``. -/
def toolKey (name : String) (input : JsonObj) : String :=
  name ++ ":" ++ jsonStringify input

/-- First pass of `processAssistantMessage`: one text block. -/
def procText (quiet : Bool) (st : StreamState) (b : ContentBlock) :
    StreamState × List TermOut :=
  match b with
  | .text s =>
    if s ≠ "" then
      let st1 := { st with fullText := s }
      if !st1.hasShownTools && st1.fullText ≠ st1.lastShownText then
        let newText := jsSliceFrom st1.fullText st1.lastShownText.length
        let outs := if newText ≠ "" && !quiet then [TermOut.write newText] else []
        ({ st1 with lastShownText := st1.fullText }, outs)
      else (st1, [])
    else (st, [])
  | .toolUse _ _ => (st, [])

/-- Second pass of `processAssistantMessage`: one tool_use block. -/
def procTool (quiet colorOn : Bool) (st : StreamState) (b : ContentBlock) :
    StreamState × List TermOut :=
  match b with
  | .toolUse name input =>
    let key := toolKey name input
    if st.seenTools.contains key then (st, [])
    else
      let st1 := { st with seenTools := st.seenTools ++ [key] }
      let sepOuts :=
        if !st1.hasShownTools && st1.lastShownText ≠ "" && !quiet then
          [TermOut.logLine ""]
        else []
      let st2 := { st1 with hasShownTools := true }
      let lineOuts :=
        if !quiet then [TermOut.logLine (formatToolCall colorOn name input)] else []
      ({ st2 with toolCount := st2.toolCount + 1 }, sepOuts ++ lineOuts)
  | .text _ => (st, [])

/-- Left fold of a per-block step, concatenating emitted output. -/
def foldProc (f : StreamState → ContentBlock → StreamState × List TermOut) :
    StreamState → List ContentBlock → StreamState × List TermOut
  | st, [] => (st, [])
  | st, b :: rest =>
    let r1 := f st b
    let r2 := foldProc f r1.1 rest
    (r2.1, r1.2 ++ r2.2)

/-- Embeds `processAssistantMessage`: text pass, then tool pass, over the same
content list. -/
def processAssistantMessage (quiet colorOn : Bool) (blocks : List ContentBlock)
    (st : StreamState) : StreamState × List TermOut :=
  let p1 := foldProc (procText quiet) st blocks
  let p2 := foldProc (procTool quiet colorOn) p1.1 blocks
  (p2.1, p1.2 ++ p2.2)

/-- Folding `processAssistantMessage` over a stream of assistant messages. -/
def processAssistantStream (quiet colorOn : Bool) :
    StreamState → List (List ContentBlock) → StreamState × List TermOut
  | st, [] => (st, [])
  | st, m :: rest =>
    let r1 := processAssistantMessage quiet colorOn m st
    let r2 := processAssistantStream quiet colorOn r1.1 rest
    (r2.1, r1.2 ++ r2.2)

/-! ## Permission handler (`shared.ts` lines 362–434)

`promptApproval` is modelled as an optional pure function (the user's
answers folded in); prompt invocations and dry-run log callbacks are
reified in the outcome. -/

def AUTO_APPROVED_TOOLS : List String := ["Read", "Glob", "Grep"]

def APPROVAL_REQUIRED_TOOLS : List String :=
  ["Bash", "Write", "Edit", "MultiEdit", "NotebookEdit"]

inductive PermissionResult where
  | allow (updatedInput : JsonObj)
  | deny (message : String)
deriving DecidableEq, Repr

inductive PermMode where
  | prompt
  | deny
deriving DecidableEq, Repr

structure HandlerOutcome where
  result : PermissionResult
  alwaysApproved : Option (List String)
  prompted : List (String × JsonObj)
  dryRunLogged : List (String × JsonObj)
deriving DecidableEq, Repr

/-- The function returned by `createPermissionHandler`, applied to one
tool request.  `hasDryRunLogger` records whether `dryRunLogger` was
supplied; `alwaysApproved = none` models an absent set. -/
def permissionHandler (dryRun hasDryRunLogger : Bool) (mode : PermMode)
    (promptApproval : Option (String → JsonObj → ApprovalResult))
    (alwaysApproved : Option (List String))
    (toolName : String) (input : JsonObj) : HandlerOutcome :=
  -- if (dryRun && dryRunLogger) { dryRunLogger(toolName, input); return deny }
  if dryRun && hasDryRunLogger then
    { result := .deny "[dry-run] Tool execution skipped",
      alwaysApproved := alwaysApproved, prompted := [],
      dryRunLogged := [(toolName, input)] }
  -- if (AUTO_APPROVED_TOOLS.includes(toolName)) return allow
  else if AUTO_APPROVED_TOOLS.contains toolName then
    { result := .allow input, alwaysApproved := alwaysApproved,
      prompted := [], dryRunLogged := [] }
  -- if (alwaysApproved?.has(toolName)) return allow
  else if (alwaysApproved.getD []).contains toolName then
    { result := .allow input, alwaysApproved := alwaysApproved,
      prompted := [], dryRunLogged := [] }
  else if APPROVAL_REQUIRED_TOOLS.contains toolName then
    if mode = PermMode.deny then
      { result := .deny "Write operations not allowed in pipe mode",
        alwaysApproved := alwaysApproved, prompted := [], dryRunLogged := [] }
    else
      match promptApproval with
      | some pa =>
        let res := pa toolName input
        if res.approved then
          let always1 :=
            if res.message == some "always" then
              alwaysApproved.map (fun l => if l.contains toolName then l else l ++ [toolName])
            else alwaysApproved
          { result := .allow input, alwaysApproved := always1,
            prompted := [(toolName, input)], dryRunLogged := [] }
        else
          { result := .deny (res.message.getD "User denied"),
            alwaysApproved := alwaysApproved, prompted := [(toolName, input)],
            dryRunLogged := [] }
      | none =>
        -- falls through to the default deny
        { result := .deny ("Unknown tool: " ++ toolName),
          alwaysApproved := alwaysApproved, prompted := [], dryRunLogged := [] }
  -- Security: deny unknown tools by default
  else
    { result := .deny ("Unknown tool: " ++ toolName),
      alwaysApproved := alwaysApproved, prompted := [], dryRunLogged := [] }

/-! ## Session store (`storage.ts`)

The SQLite tables are modelled as in-memory row lists.  `Date.now()` and
`generateId()` results are passed in explicitly at each call.  Costs
(SQLite `REAL`) are rationals; token counts (`INTEGER`) are integers. -/

structure SessionRow where
  id : String
  sdkSessionId : Option String
  createdAt : Nat
  updatedAt : Nat
  model : String
  totalTokens : Int
  totalCost : ℚ
  cwd : Option String
  title : Option String
deriving DecidableEq, Repr

structure MessageRow where
  id : String
  sessionId : String
  role : String
  content : String
  tokens : Option Int
  timestamp : Nat
deriving DecidableEq, Repr

structure Store where
  sessions : List SessionRow
  messages : List MessageRow
deriving DecidableEq, Repr

def emptyStore : Store := { sessions := [], messages := [] }

structure Message where
  id : String
  role : String
  content : String
  tokens : Option Int
  timestamp : Nat
deriving DecidableEq, Repr

structure Session where
  id : String
  sdkSessionId : Option String
  createdAt : Nat
  updatedAt : Nat
  model : String
  messages : List Message
  totalTokens : Int
  totalCost : ℚ
deriving DecidableEq, Repr

/-- Embeds `createSession`: INSERT with `total_tokens`/`total_cost` defaulting to 0
and `title` NULL. -/
def createSession (st : Store) (model : String) (cwd : Option String)
    (now : Nat) (newId : String) : Store × Session :=
  let row : SessionRow :=
    { id := newId, sdkSessionId := none, createdAt := now, updatedAt := now,
      model := model, totalTokens := 0, totalCost := 0, cwd := cwd, title := none }
  ({ st with sessions := st.sessions ++ [row] },
   { id := newId, sdkSessionId := none, createdAt := now, updatedAt := now,
     model := model, messages := [], totalTokens := 0, totalCost := 0 })

/-- Embeds `addMessage`: INSERT a message row, then bump the session's
`updated_at`. -/
def addMessage (st : Store) (sessionId role content : String) (tokens : Option Int)
    (now : Nat) (newId : String) : Store × Message :=
  let row : MessageRow :=
    { id := newId, sessionId := sessionId, role := role, content := content,
      tokens := tokens, timestamp := now }
  ({ sessions := st.sessions.map
       (fun s => if s.id = sessionId then { s with updatedAt := now } else s),
     messages := st.messages ++ [row] },
   { id := newId, role := role, content := content, tokens := tokens, timestamp := now })

/-- JS truthiness of the optional `title` argument (`if (title)`):
`undefined` and the empty string are falsy. -/
def titleTruthy : Option String → Bool
  | some t => t ≠ ""
  | none => false

/-- Embeds `updateSessionStats`: additive tokens/cost; `title = COALESCE(title, ?)`
only when a truthy title was passed. -/
def updateSessionStats (st : Store) (sessionId : String) (tokens : Int) (cost : ℚ)
    (title : Option String) (now : Nat) : Store :=
  if titleTruthy title then
    { st with sessions := st.sessions.map (fun s =>
        if s.id = sessionId then
          { s with totalTokens := s.totalTokens + tokens,
                   totalCost := s.totalCost + cost, updatedAt := now,
                   title := s.title.orElse (fun _ => title) }
        else s) }
  else
    { st with sessions := st.sessions.map (fun s =>
        if s.id = sessionId then
          { s with totalTokens := s.totalTokens + tokens,
                   totalCost := s.totalCost + cost, updatedAt := now }
        else s) }

/-- Embeds `updateSdkSessionId`: idempotent overwrite, latest wins. -/
def updateSdkSessionId (st : Store) (sessionId sdkSessionId : String) : Store :=
  { st with sessions := st.sessions.map (fun s =>
      if s.id = sessionId then { s with sdkSessionId := some sdkSessionId } else s) }

/-- Stable insertion by timestamp: models `ORDER BY timestamp ASC`, which
preserves insertion order among equal timestamps. -/
def insertByTimestamp (m : MessageRow) : List MessageRow → List MessageRow
  | [] => [m]
  | x :: xs =>
    if x.timestamp ≤ m.timestamp then x :: insertByTimestamp m xs else m :: x :: xs

def sortByTimestamp (l : List MessageRow) : List MessageRow :=
  l.foldl (fun acc m => insertByTimestamp m acc) []

/-- Embeds `getSession`: the session row plus its messages ordered by timestamp. -/
def getSession (st : Store) (id : String) : Option Session :=
  match st.sessions.find? (fun s => s.id == id) with
  | none => none
  | some row =>
    let msgs := sortByTimestamp (st.messages.filter (fun m => m.sessionId == id))
    some { id := row.id, sdkSessionId := row.sdkSessionId, createdAt := row.createdAt,
           updatedAt := row.updatedAt, model := row.model,
           messages := msgs.map (fun m =>
             { id := m.id, role := m.role, content := m.content,
               tokens := m.tokens, timestamp := m.timestamp }),
           totalTokens := row.totalTokens, totalCost := row.totalCost }

/-- Embeds `deleteSession`: DELETE with CASCADE to messages; reports whether a
row was removed. -/
def deleteSession (st : Store) (id : String) : Store × Bool :=
  let remaining := st.sessions.filter (fun s => !(s.id == id))
  ({ sessions := remaining,
     messages := st.messages.filter (fun m => !(m.sessionId == id)) },
   remaining.length < st.sessions.length)

/-! ## Number formatting (`format.ts`)

`toFixed`/`Math.round` on the small decimal values used here are modelled
by exact rational rounding (round half away from zero on the magnitudes
that occur).  No claim depends on these strings. -/

def padLeftZeros (s : String) (d : Nat) : String :=
  if s.length < d then String.mk (List.replicate (d - s.length) '0') ++ s else s

/-- Embeds `x.toFixed(d)` for a rational `x`. -/
def qToFixed (q : ℚ) (d : Nat) : String :=
  let n : Int := ⌊q * (10 ^ d : ℚ) + 1 / 2⌋
  let sign := if n < 0 then "-" else ""
  let m := n.natAbs
  if d = 0 then sign ++ toString m
  else sign ++ toString (m / 10 ^ d) ++ "." ++ padLeftZeros (toString (m % 10 ^ d)) d

def TOKENS_USE_RAW : Int := 1000
def TOKENS_USE_DECIMAL : Int := 10000

/-- Embeds `formatTokens` from `format.ts`. -/
def formatTokens (input output : Int) : String :=
  let total := input + output
  if total < TOKENS_USE_RAW then toString total
  else if total < TOKENS_USE_DECIMAL then qToFixed ((total : ℚ) / 1000) 1 ++ "k"
  else toString (⌊(total : ℚ) / 1000 + 1 / 2⌋ : Int) ++ "k"

/-- Embeds `formatCost` from `format.ts`. -/
def formatCost (cost : ℚ) : String :=
  if cost < 1 / 100 then "$" ++ qToFixed cost 4
  else if cost < 1 / 10 then "$" ++ qToFixed cost 3
  else "$" ++ qToFixed cost 2

/-! ## Result handling (`agent.ts` lines 229–273) -/

structure ResultMsg where
  subtype : String
  inputTokens : Int
  outputTokens : Int
  totalCostUsd : ℚ
  numTurns : Nat
  resultText : Option String
deriving DecidableEq, Repr

/-- The rendering-relevant CLI arguments. -/
structure CliView where
  quiet : Bool
  verbose : Bool
  model : Option String
deriving DecidableEq, Repr

/-- Embeds `handleResultMessage`.  Here `render` stands for the async markdown
renderer applied to the final text; `msgNow`/`msgId`/`statsNow` are the
`Date.now()`/`generateId()` results of the two storage calls. -/
def handleResultMessage (result : ResultMsg) (st : StreamState) (store : Store)
    (sessionId task : String) (args : CliView) (render : String → String)
    (colorOn : Bool) (msgNow : Nat) (msgId : String) (statsNow : Nat) :
    Store × List TermOut :=
  let quiet := args.quiet
  let renderOuts :=
    if st.fullText ≠ "" && !quiet then
      [TermOut.logLine ""] ++
      (if st.hasShownTools then [TermOut.logLine (render st.fullText)]
       else if st.lastShownText = "" then [TermOut.logLine (render st.fullText)]
       else [])
    else []
  let totalTokens := result.inputTokens + result.outputTokens
  let store1 := (addMessage store sessionId "assistant" st.fullText (some totalTokens)
    msgNow msgId).1
  let store2 := updateSessionStats store1 sessionId totalTokens result.totalCostUsd
    (some (jsSliceTo task 50)) statsNow
  let statsOuts :=
    if args.verbose then
      [TermOut.logLine "",
       TermOut.logLine (semanticMuted colorOn (String.mk (List.replicate SEPARATOR_WIDTH '─'))),
       TermOut.logLine (semanticMuted colorOn
         (colorStr colorOn [ansiGreen] "✓" ++ " " ++
          formatTokens result.inputTokens result.outputTokens ++ " tokens │ " ++
          formatCost result.totalCostUsd ++ " │ " ++ (args.model.getD "sonnet") ++ " │ " ++
          toString result.numTurns ++ " turns │ " ++ toString st.toolCount ++ " tools")),
       TermOut.logLine (semanticMuted colorOn ("session: " ++ sessionId))]
    else []
  (store2, renderOuts ++ statsOuts)

/-! ## The §8 scenario stream (claim C1)

The scenario of the spec's *Scenario* property, traced through the agent
loop of `runAgent`: session creation, the user message, the init message,
the two assistant snapshots, then the result.  Only the stream-processing
output is modelled (the pre-stream "Agent mode" banner is outside the
scenario).  `quiet = false`, `verbose = false`, colors off. -/

def grepTodoInput : JsonObj := ⟨[("pattern", "TODO")]⟩

def c1Messages : List (List ContentBlock) :=
  [[ContentBlock.text "Checking files..."],
   [ContentBlock.text "Checking files...", ContentBlock.toolUse "Grep" grepTodoInput]]

def c1Result : ResultMsg :=
  { subtype := "success", inputTokens := 50, outputTokens := 20,
    totalCostUsd := 2 / 1000, numTurns := 1, resultText := some "Checking files..." }

/-- The full scenario run: resulting store, stream state, and terminal
output of stream processing. -/
def c1Run (task : String) (render : String → String) :
    Store × StreamState × List TermOut :=
  let store0 := (createSession emptyStore "claude-sonnet-4-20250514" (some "/work") 0 "q1").1
  let store1 := (addMessage store0 "q1" "user" task none 1 "m1").1
  -- init message: captures the SDK session id (new session, not resuming)
  let store2 := updateSdkSessionId store1 "q1" "s1"
  let pa := processAssistantStream false false initState c1Messages
  let r := handleResultMessage c1Result pa.1 store2 "q1" task
    { quiet := false, verbose := false, model := none } render false 2 "m2" 3
  (r.1, pa.1, pa.2 ++ r.2)

/-! ## Markdown renderer (`markdown.ts`)

`renderInline`'s chained `String.replace` calls are modelled by explicit
scanners with JS left-to-right, continue-after-match semantics.  The fuel
arguments bound recursion by the input length and are always sufficient
(each step consumes at least one character).  The renderer uses the raw
ANSI constants from `colors.ts` (not the color-mode-aware `color()`). -/

def backtickChar : Char := Char.ofNat 96

/-- JS `.` in the inline patterns: any char but a line terminator. -/
def dotOk (c : Char) : Bool := !(c = '\n' || c = '\r')

/-- Find the lazily-closest `closeD` after at least one `ok` content
char; returns the content and the text after the closing delimiter. -/
def lazyClose (closeD : List Char) (ok : Char → Bool) (acc : List Char) :
    List Char → Option (List Char × List Char)
  | [] => none
  | c :: cs =>
    if closeD.isPrefixOf (c :: cs) && !acc.isEmpty then
      some (acc.reverse, (c :: cs).drop closeD.length)
    else if ok c then lazyClose closeD ok (c :: acc) cs
    else none

/-- One global delimiter-pair replace, e.g. `/\*\*(.+?)\*\*/g`. -/
def replaceDelimF (openD closeD : List Char) (ok : Char → Bool)
    (wrap : List Char → List Char) : Nat → List Char → List Char
  | 0, s => s
  | _ + 1, [] => []
  | fuel + 1, c :: cs =>
    if openD.isPrefixOf (c :: cs) then
      match lazyClose closeD ok [] ((c :: cs).drop openD.length) with
      | some (content, tail) =>
        wrap content ++ replaceDelimF openD closeD ok wrap fuel tail
      | none => c :: replaceDelimF openD closeD ok wrap fuel cs
    else c :: replaceDelimF openD closeD ok wrap fuel cs

/-- Closing scan for `/(?<!\*)\*([^*]+)\*(?!\*)/`: one-plus non-star
content, a closing star, and a non-star lookahead. -/
def italicTryClose (acc : List Char) : List Char → Option (List Char × List Char)
  | [] => none
  | c :: cs =>
    if c = '*' then
      if acc.isEmpty then none
      else
        match cs with
        | [] => some (acc.reverse, [])
        | d :: _ => if d = '*' then none else some (acc.reverse, cs)
    else italicTryClose (c :: acc) cs

/-- The italic replace; `prevStar` tracks the `(?<!\*)` lookbehind. -/
def italicRepl : Nat → Bool → List Char → List Char
  | 0, _, s => s
  | _ + 1, _, [] => []
  | fuel + 1, prevStar, c :: cs =>
    if c = '*' && !prevStar then
      match italicTryClose [] cs with
      | some (content, tail) =>
        ansiDim.data ++ content ++ ansiReset.data ++ italicRepl fuel true tail
      | none => c :: italicRepl fuel true cs
    else c :: italicRepl fuel (c = '*') cs

/-- Greedy scan to `stop`, returning content and the remainder after it. -/
def takeUntilChar (stop : Char) : List Char → Option (List Char × List Char)
  | [] => none
  | c :: cs =>
    if c = stop then some ([], cs)
    else
      match takeUntilChar stop cs with
      | some (content, rest) => some (c :: content, rest)
      | none => none

/-- The link replace `/\[([^\]]+)\]\(([^)]+)\)/g` →
`cyan label reset muted (url) reset`. -/
def linkRepl : Nat → List Char → List Char
  | 0, s => s
  | _ + 1, [] => []
  | fuel + 1, c :: cs =>
    if c = '[' then
      match takeUntilChar ']' cs with
      | some (label, rest1) =>
        if label.isEmpty then c :: linkRepl fuel cs
        else
          match rest1 with
          | '(' :: rest2 =>
            (match takeUntilChar ')' rest2 with
             | some (url, rest3) =>
               if url.isEmpty then c :: linkRepl fuel cs
               else
                 ansiCyan.data ++ label ++ ansiReset.data ++ " ".data ++
                   ansiMuted.data ++ "(".data ++ url ++ ")".data ++ ansiReset.data ++
                   linkRepl fuel rest3
             | none => c :: linkRepl fuel cs)
          | _ => c :: linkRepl fuel cs
      | none => c :: linkRepl fuel cs
    else c :: linkRepl fuel cs

/-- The final `\\_` → `_` unescape. -/
def unescapeUnderscores : List Char → List Char
  | [] => []
  | '\\' :: '_' :: rest => '_' :: unescapeUnderscores rest
  | c :: rest => c :: unescapeUnderscores rest

/-- Embeds `renderInline` from `markdown.ts`: the six chained replaces, in
source order. -/
def renderInline (text : String) : String :=
  let s0 := text.data
  let wrapBold := fun (c : List Char) => ansiBold.data ++ c ++ ansiReset.data
  let wrapCoral := fun (c : List Char) => ansiCoral.data ++ c ++ ansiReset.data
  let s1 := replaceDelimF "**".data "**".data dotOk wrapBold (s0.length + 1) s0
  let s2 := replaceDelimF "__".data "__".data dotOk wrapBold (s1.length + 1) s1
  let s3 := italicRepl (s2.length + 1) false s2
  let s4 := replaceDelimF [backtickChar] [backtickChar] (fun c => c ≠ backtickChar)
    wrapCoral (s3.length + 1) s3
  let s5 := linkRepl (s4.length + 1) s4
  ⟨unescapeUnderscores s5⟩

/-- Embeds `escapeFilenameUnderscores`: `/(\w)_(\w)/g` → `$1\_$2`. -/
def escapeUnders : Nat → List Char → List Char
  | 0, s => s
  | _ + 1, [] => []
  | fuel + 1, c :: cs =>
    match cs with
    | d :: e :: rest =>
      if isWordChar c && d = '_' && isWordChar e then
        c :: '\\' :: '_' :: e :: escapeUnders fuel rest
      else c :: escapeUnders fuel cs
    | _ => c :: escapeUnders fuel cs

def escapeFilenameUnderscores (text : String) : String :=
  ⟨escapeUnders (text.data.length + 1) text.data⟩

/-- Length of the leading run of newlines. -/
def countLeadingNl : List Char → Nat
  | [] => 0
  | c :: cs => if c = '\n' then countLeadingNl cs + 1 else 0

/-- Embeds `.replace(/\n\x7b3,\x7d/g, '\n\n')`. -/
def collapseNewlines : Nat → List Char → List Char
  | 0, s => s
  | _ + 1, [] => []
  | fuel + 1, c :: cs =>
    if c = '\n' then
      let run := countLeadingNl (c :: cs)
      if 3 ≤ run then '\n' :: '\n' :: collapseNewlines fuel ((c :: cs).drop run)
      else c :: collapseNewlines fuel cs
    else c :: collapseNewlines fuel cs

/-- The shared output cleanup of `render`/`renderSync`. -/
def cleanupRendered (s : String) : String :=
  jsTrim ⟨collapseNewlines (s.data.length + 1) s.data⟩

/-! ### Tokens (the `marked` token shapes consumed by the renderer) -/

mutual
inductive MToken where
  | heading (depth : Nat) (text : String)
  | paragraph (text : String)
  | blockquote (tokens : MTokens)
  | mdlist (ordered : Bool) (items : MItems)
  | listItem (tokens : MTokens)
  | hr
  | space
  | text (s : String)
  | textWith (s : String) (tokens : MTokens)
  | strong (s : String)
  | em (s : String)
  | codespan (s : String)
  | link (s : String) (href : String)
  | code (s : String) (lang : Option String)
  | other (textField : Option String)
deriving DecidableEq, Repr
inductive MTokens where
  | nil
  | cons (t : MToken) (ts : MTokens)
deriving DecidableEq, Repr
inductive MItems where
  | nil
  | cons (item : MTokens) (rest : MItems)
deriving DecidableEq, Repr
end

def HR_WIDTH : Nat := 80

/-- Embeds `renderCodeBlockSimple` (the plain, fast path). -/
def renderCodeBlockSimple (code lang : String) : String :=
  let lines := code.splitOn "\n"
  let langLabel :=
    if lang ≠ "" then ansiMuted ++ "─── " ++ ansiCyan ++ lang ++ ansiReset else ""
  let content := String.intercalate "\n"
    (lines.map (fun line => "  " ++ ansiCoral ++ line ++ ansiReset))
  langLabel ++ "\n" ++ content

def SUPPORTED_LANGS : List String :=
  ["javascript", "typescript", "python", "rust", "go", "bash", "shell", "json",
   "yaml", "toml", "markdown", "html", "css", "sql", "diff"]

def needsHighlighting (lang : String) : Bool := SUPPORTED_LANGS.contains lang

/-- Embeds `renderCodeBlock` (async path).  Here `codeToAnsi` stands for the external
shiki highlighting composed with `htmlToAnsi`. -/
def renderCodeBlock (codeToAnsi : String → String → String) (code lang : String) :
    String :=
  if !needsHighlighting lang then renderCodeBlockSimple code lang
  else
    let ansi := codeToAnsi code lang
    let lines := ansi.splitOn "\n"
    let langLabel :=
      if lang ≠ "" then ansiMuted ++ "─── " ++ ansiCyan ++ lang ++ ansiReset else ""
    let content := String.intercalate "\n" (lines.map (fun line => "  " ++ line))
    langLabel ++ "\n" ++ content

/-- Heading case of `renderTokenCore`. -/
def headingStr (depth : Nat) (text : String) : String :=
  let prefixStr := String.mk (List.replicate depth '#')
  let txt := renderInline text
  if depth = 1 then "\n" ++ ansiPurple ++ ansiBold ++ prefixStr ++ " " ++ txt ++ ansiReset ++ "\n"
  else if depth = 2 then "\n" ++ ansiCyan ++ ansiBold ++ prefixStr ++ " " ++ txt ++ ansiReset ++ "\n"
  else "\n" ++ ansiYellow ++ prefixStr ++ " " ++ txt ++ ansiReset ++ "\n"

/-- Blockquote case of `renderTokenCore`, given the rendered content. -/
def blockquoteWrap (content : String) : String :=
  let lines := (content.splitOn "\n").filter (fun l => jsTrim l ≠ "")
  String.intercalate "\n"
    (lines.map (fun line => ansiMuted ++ "│" ++ ansiReset ++ " " ++ line)) ++ "\n"

def bulletStr (ordered : Bool) (i : Nat) : String :=
  if ordered then ansiCoral ++ toString (i + 1) ++ "." ++ ansiReset
  else ansiPurple ++ "•" ++ ansiReset

/-- List case of `renderTokenCore`, given the rendered item contents. -/
def listLines (ordered : Bool) : Nat → List String → List String
  | _, [] => []
  | i, c :: rest =>
    ("  " ++ bulletStr ordered i ++ " " ++ jsTrim c) :: listLines ordered (i + 1) rest

def listWrap (ordered : Bool) (contents : List String) : String :=
  String.intercalate "\n" (listLines ordered 0 contents) ++ "\n"

/-- Embeds the `hr` case of `renderTokenCore`. -/
def hrStr : String :=
  "\n" ++ ansiMuted ++ String.mk (List.replicate HR_WIDTH '─') ++ ansiReset ++ "\n"

/-- Link case of `renderTokenCore`. -/
def linkStr (text href : String) : String :=
  ansiCyan ++ text ++ ansiReset ++ " " ++ ansiMuted ++ "(" ++ href ++ ")" ++ ansiReset

/-! The sync renderer `renderTokenSync` (from `renderSync`) and the async
path's nested renderer `renderNested` (from `renderToken`) both
instantiate `renderTokenCore` with themselves as the nested-token
callback; they are transcribed here as direct mutual recursions, with
the `renderTokenCore` cases spelled out identically.  They differ only
on `code` tokens: sync renders the simple block plus a newline, the
async nested callback yields `''` (`renderTokenCore` returns `null`,
`?? ''`). -/

mutual
def renderTokenSyncD : MToken → String
  | .code s lang => renderCodeBlockSimple s (lang.getD "") ++ "\n"
  | .heading depth text => headingStr depth text
  | .paragraph text => renderInline text ++ "\n"
  | .blockquote ts => blockquoteWrap (renderTokensSyncD ts)
  | .mdlist ordered items => listWrap ordered (renderItemsSyncD items)
  | .listItem ts => renderTokensSyncD ts
  | .hr => hrStr
  | .space => "\n"
  | .text s => renderInline s
  | .textWith _ ts => renderTokensSyncD ts
  | .strong s => ansiBold ++ s ++ ansiReset
  | .em s => ansiDim ++ s ++ ansiReset
  | .codespan s => ansiCoral ++ s ++ ansiReset
  | .link s href => linkStr s href
  | .other (some s) => renderInline s
  | .other none => ""
def renderTokensSyncD : MTokens → String
  | .nil => ""
  | .cons t ts => renderTokenSyncD t ++ renderTokensSyncD ts
def renderItemsSyncD : MItems → List String
  | .nil => []
  | .cons item rest => renderTokensSyncD item :: renderItemsSyncD rest
end

mutual
def renderNestedD : MToken → String
  | .code _ _ => ""
  | .heading depth text => headingStr depth text
  | .paragraph text => renderInline text ++ "\n"
  | .blockquote ts => blockquoteWrap (renderNestedsD ts)
  | .mdlist ordered items => listWrap ordered (renderNestedItemsD items)
  | .listItem ts => renderNestedsD ts
  | .hr => hrStr
  | .space => "\n"
  | .text s => renderInline s
  | .textWith _ ts => renderNestedsD ts
  | .strong s => ansiBold ++ s ++ ansiReset
  | .em s => ansiDim ++ s ++ ansiReset
  | .codespan s => ansiCoral ++ s ++ ansiReset
  | .link s href => linkStr s href
  | .other (some s) => renderInline s
  | .other none => ""
def renderNestedsD : MTokens → String
  | .nil => ""
  | .cons t ts => renderNestedD t ++ renderNestedsD ts
def renderNestedItemsD : MItems → List String
  | .nil => []
  | .cons item rest => renderNestedsD item :: renderNestedItemsD rest
end

/-- Async `renderToken`: code blocks go through `renderCodeBlock`; for
every other token the body is literally the `renderNested` expression. -/
def renderTokenAsyncD (codeToAnsi : String → String → String) (t : MToken) : String :=
  match t with
  | .code s lang => renderCodeBlock codeToAnsi s (lang.getD "")
  | _ => renderNestedD t

/-- Async `renderTokens`. -/
def renderTokensAsyncD (codeToAnsi : String → String → String) : MTokens → String
  | .nil => ""
  | .cons t ts => renderTokenAsyncD codeToAnsi t ++ renderTokensAsyncD codeToAnsi ts

/-- Embeds `render` (async).  Here `lex` stands for `new Marked().lexer`. -/
def render (codeToAnsi : String → String → String) (lex : String → MTokens)
    (markdown : String) : String :=
  cleanupRendered (renderTokensAsyncD codeToAnsi (lex (escapeFilenameUnderscores markdown)))

/-- Embeds `renderSync`. -/
def renderSync (lex : String → MTokens) (markdown : String) : String :=
  cleanupRendered (renderTokensSyncD (lex (escapeFilenameUnderscores markdown)))

/-! ### Code-freedom predicate (for claim C9) -/

mutual
def tokenNoCode : MToken → Bool
  | .code _ _ => false
  | .blockquote ts => tokensNoCode ts
  | .mdlist _ items => itemsNoCode items
  | .listItem ts => tokensNoCode ts
  | .textWith _ ts => tokensNoCode ts
  | _ => true
def tokensNoCode : MTokens → Bool
  | .nil => true
  | .cons t ts => tokenNoCode t && tokensNoCode ts
def itemsNoCode : MItems → Bool
  | .nil => true
  | .cons item rest => tokensNoCode item && itemsNoCode rest
end

/-! ## Claim-support definitions -/

/-- One `updateSessionStats` call: tokens, cost, optional title, and the
`Date.now()` at the call. -/
structure StatsCall where
  tokens : Int
  cost : ℚ
  title : Option String
  now : Nat
deriving DecidableEq, Repr

/-- Fold a sequence of `updateSessionStats` calls over the store. -/
def applyStats (sid : String) : Store → List StatsCall → Store
  | st, [] => st
  | st, c :: rest => applyStats sid (updateSessionStats st sid c.tokens c.cost c.title c.now) rest

def sumTokens : List StatsCall → Int
  | [] => 0
  | c :: rest => c.tokens + sumTokens rest

def sumCost : List StatsCall → ℚ
  | [] => 0
  | c :: rest => c.cost + sumCost rest

/-- The title of the first call whose title argument is truthy. -/
def firstTruthyTitle : List StatsCall → Option String
  | [] => none
  | c :: rest => if titleTruthy c.title then c.title else firstTruthyTitle rest

/-- The `updated_at` after the calls. -/
def lastUpdated (u : Nat) : List StatsCall → Nat
  | [] => u
  | c :: rest => lastUpdated c.now rest

/-- Holds when `t` is a prefix of `s`. -/
def PrefixRel (t s : String) : Prop := ∃ u, s = t ++ u

/-- Each string is a prefix of the next. -/
def PrefixChain : List String → Prop
  | [] => True
  | [_] => True
  | s1 :: s2 :: rest => PrefixRel s1 s2 ∧ PrefixChain (s2 :: rest)

/-- Concatenation of all `stdout.write` payloads (the live deltas). -/
def writesOf : List TermOut → String
  | [] => ""
  | TermOut.write s :: rest => s ++ writesOf rest
  | TermOut.logLine _ :: rest => writesOf rest

/-- The last snapshot, with `l` as fallback for the empty stream. -/
def lastSnap (l : String) : List String → String
  | [] => l
  | s :: rest => lastSnap s rest

/-- Number of `console.log` lines equal to `line`. -/
def countLog : List TermOut → String → Nat
  | [], _ => 0
  | TermOut.logLine s :: rest, line => (if s = line then 1 else 0) + countLog rest line
  | TermOut.write _ :: rest, line => countLog rest line

/-- Whether a content block is a tool_use block. -/
def hasToolBlock : ContentBlock → Bool
  | ContentBlock.toolUse _ _ => true
  | ContentBlock.text _ => false

/-- Every tool_use block in sight carries this (name, input) pair. -/
def blockKeyed (name : String) (input : JsonObj) : ContentBlock → Bool
  | ContentBlock.text _ => true
  | ContentBlock.toolUse n i => n == name && i == input

/-! # Claims -/

/-! ## C2: risk classification and prompt acceptance -/

/-- C2 counterexample: the claim's example of a medium-risk command,
`git push --force`, is in fact classified high: it matches the high-risk
pattern `/\bgit\s+push\s+.*--force/i`, which is tested before any medium
pattern. -/
theorem C2_counterexample :
    ¬ ((assessRisk "Bash" ⟨[("command", "git push --force")]⟩).level =
        RiskLevel.medium) := by
  decide

/-- C2 (amended): `rm -rf /` is classified high risk, and a high-risk
prompt accepts neither empty input nor an "always" answer; a command
matching only a medium pattern (e.g. `mv a b`) is classified medium, and
its prompt accepts "always" but does not default-accept on empty input.
`git push --force` itself matches a high-risk pattern and is classified
high. -/
theorem C2_amended (answer : String)
    (h : jsTrim (jsToLower answer) = "" ∨ jsTrim (jsToLower answer) = "a" ∨
         jsTrim (jsToLower answer) = "always") :
    (assessRisk "Bash" ⟨[("command", "rm -rf /")]⟩).level = RiskLevel.high
    ∧ (promptToolApproval answer "Bash" ⟨[("command", "rm -rf /")]⟩).approved = false
    ∧ (assessRisk "Bash" ⟨[("command", "mv a b")]⟩).level = RiskLevel.medium
    ∧ (assessRisk "Bash" ⟨[("command", "git push --force")]⟩).level = RiskLevel.high
    ∧ promptToolApproval "always" "Bash" ⟨[("command", "mv a b")]⟩ =
        { approved := true, message := some "always" }
    ∧ (promptToolApproval "" "Bash" ⟨[("command", "mv a b")]⟩).approved = false := by
  have hl : (assessRisk "Bash" ⟨[("command", "rm -rf /")]⟩).level = RiskLevel.high := by
    decide
  refine ⟨hl, ?_, by decide, by decide, by decide, by decide⟩
  rcases h with h | h | h <;>
    · simp only [promptToolApproval, promptAnswerDecision, hl, h]
      decide

/-- C2 witness: instantiating the amended theorem at the answer "a". -/
theorem C2_amended_witness :
    (jsTrim (jsToLower "a") = "a")
    ∧ (promptToolApproval "a" "Bash" ⟨[("command", "rm -rf /")]⟩).approved = false :=
  ⟨by decide, (C2_amended "a" (Or.inr (Or.inl (by decide)))).2.1⟩

/-! ## C5: unknown tools are denied by default -/

/-- C5: a tool name that is neither auto-approved nor approval-required
nor recorded as always-approved is denied with a message naming it, in
every policy mode, and can never produce an allow. -/
theorem C5_unknown_tool_denied (mode : PermMode) (hasLogger : Bool)
    (pa : Option (String → JsonObj → ApprovalResult)) (always : Option (List String))
    (toolName : String) (input : JsonObj)
    (hauto : toolName ∉ AUTO_APPROVED_TOOLS)
    (happr : toolName ∉ APPROVAL_REQUIRED_TOOLS)
    (halways : toolName ∉ always.getD []) :
    (permissionHandler false hasLogger mode pa always toolName input).result =
      PermissionResult.deny ("Unknown tool: " ++ toolName)
    ∧ ∀ (dryRun hasLogger2 : Bool) (input2 u : JsonObj),
        (permissionHandler dryRun hasLogger2 mode pa always toolName input2).result ≠
          PermissionResult.allow u := by
  constructor
  · simp [permissionHandler, hauto, happr, halways]
  · intro dryRun hasLogger2 input2 u
    cases hd : dryRun && hasLogger2 <;>
      simp [permissionHandler, hd, hauto, happr, halways]

/-- C5 witness: the unknown tool "Tavily" in prompt mode. -/
theorem C5_witness :
    (permissionHandler false false PermMode.prompt none none "Tavily"
        ⟨[]⟩).result = PermissionResult.deny ("Unknown tool: " ++ "Tavily") :=
  (C5_unknown_tool_denied PermMode.prompt false none none "Tavily" ⟨[]⟩
    (by decide) (by decide) (by decide)).1

/-! ## C6: dry-run -/

/-- C6 counterexample: with the dry-run flag set but no dry-run logger
supplied, a read-only tool request is allowed, not denied — the guard in
`createPermissionHandler` is `if (dryRun && dryRunLogger)`. -/
theorem C6_counterexample :
    (permissionHandler true false PermMode.prompt none none "Read"
        ⟨[]⟩).result = PermissionResult.allow ⟨[]⟩ := by
  decide

/-- C6 (amended): when the handler is created with the dry-run flag set
and a dry-run logger supplied, every tool request — including read-only
auto-approved ones — is logged and denied with the dry-run reason, and no
prompt is ever shown. -/
theorem C6_amended (mode : PermMode)
    (pa : Option (String → JsonObj → ApprovalResult)) (always : Option (List String))
    (toolName : String) (input : JsonObj) :
    (permissionHandler true true mode pa always toolName input).result =
      PermissionResult.deny "[dry-run] Tool execution skipped"
    ∧ (permissionHandler true true mode pa always toolName input).dryRunLogged =
        [(toolName, input)]
    ∧ (permissionHandler true true mode pa always toolName input).prompted = [] :=
  ⟨rfl, rfl, rfl⟩

/-! ## C10: the "always" memo is keyed by tool name and bypasses risk -/

/-- C10: once a tool name is in the always-approved set, every request
for that tool (with the dry-run flag off) returns allow without invoking
the approval prompt — hence without any risk assessment — for every
input, including ones matching high-risk destructive patterns. -/
theorem C10_always_approved_bypasses (hasLogger : Bool) (mode : PermMode)
    (pa : Option (String → JsonObj → ApprovalResult)) (always : List String)
    (toolName : String) (input : JsonObj)
    (hmem : toolName ∈ always) :
    (permissionHandler false hasLogger mode pa (some always) toolName input).result =
      PermissionResult.allow input
    ∧ (permissionHandler false hasLogger mode pa (some always) toolName input).prompted =
        [] := by
  by_cases hauto : toolName ∈ AUTO_APPROVED_TOOLS <;>
    constructor <;> simp [permissionHandler, hauto, hmem]

/-- C10 witness: after "always" was recorded for Bash, a destructive
`rm -rf /` call is allowed without a prompt, even though its risk level
is high and the supplied prompt would answer "n". -/
theorem C10_witness :
    ("Bash" ∈ ["Bash"])
    ∧ (assessRisk "Bash" ⟨[("command", "rm -rf /")]⟩).level = RiskLevel.high
    ∧ (permissionHandler false false PermMode.prompt
        (some (fun n i => promptToolApproval "n" n i)) (some ["Bash"]) "Bash"
        ⟨[("command", "rm -rf /")]⟩).result =
        PermissionResult.allow ⟨[("command", "rm -rf /")]⟩ :=
  ⟨by decide, by decide,
   (C10_always_approved_bypasses false PermMode.prompt
     (some (fun n i => promptToolApproval "n" n i)) ["Bash"] "Bash"
     ⟨[("command", "rm -rf /")]⟩ (by decide)).1⟩

/-! ## C1: the §8 scenario -/

/-- C1 counterexample: the scenario's terminal output is not just the
announcement line and the Grep tool line — after the result message the
processor re-renders the full text through the markdown renderer (tools
were shown), so further textual output follows the result. -/
theorem C1_counterexample :
    ¬ ((c1Run "check" (fun s => s)).2.2 =
        [TermOut.write "Checking files...", TermOut.logLine "",
         TermOut.logLine (formatToolCall false "Grep" grepTodoInput)]) := by
  decide

/-- C1 (amended): the scenario prints the announcement "Checking
files...", a blank separator, a single Grep tool line, and — after the
result — a blank line and the markdown rendering of the full text
"Checking files..." (because tools were shown); the persisted assistant
message content is "Checking files..." and the final toolCount is 1. -/
theorem C1_amended (task : String) (render : String → String) :
    (c1Run task render).2.2 =
      [TermOut.write "Checking files...", TermOut.logLine "",
       TermOut.logLine (formatToolCall false "Grep" grepTodoInput),
       TermOut.logLine "", TermOut.logLine (render "Checking files...")]
    ∧ (c1Run task render).2.1.toolCount = 1
    ∧ (getSession (c1Run task render).1 "q1").map
        (fun s => s.messages.map (fun m => (m.role, m.content))) =
      some [("user", task), ("assistant", "Checking files...")] := by
  refine ⟨rfl, rfl, ?_⟩
  simp only [c1Run, handleResultMessage, updateSessionStats]
  split <;> rfl

/-! ## C7: round-trip persistence -/

/-- C7: creating a session, appending a user message and an assistant
message with token count `T`, then updating stats with tokens `T2` and
cost `C`, yields a fetched session with `totalTokens = T2`,
`totalCost = C`, and the message list `[user, assistant]` in order. -/
theorem C7_roundtrip (model contentU contentA : String) (cwd : Option String)
    (T T2 : Int) (C : ℚ) (t0 t1 t2 t3 : Nat) (sid mid1 mid2 : String)
    (ht : t1 ≤ t2) :
    (getSession (updateSessionStats ((addMessage ((addMessage
        ((createSession emptyStore model cwd t0 sid).1)
        sid "user" contentU none t1 mid1).1)
        sid "assistant" contentA (some T) t2 mid2).1)
        sid T2 C none t3) sid).map
      (fun s => (s.totalTokens, s.totalCost,
        s.messages.map (fun m => (m.role, m.content, m.tokens)))) =
    some (T2, C, [("user", contentU, (none : Option Int)),
                  ("assistant", contentA, some T)]) := by
  simp [createSession, addMessage, updateSessionStats, getSession, emptyStore,
        sortByTimestamp, insertByTimestamp, titleTruthy, ht]

/-- C7 witness: a concrete round trip. -/
theorem C7_witness :
    (5 ≤ 6)
    ∧ (getSession (updateSessionStats ((addMessage ((addMessage
        ((createSession emptyStore "claude-sonnet-4-20250514" none 4 "s1").1)
        "s1" "user" "hi" none 5 "m1").1)
        "s1" "assistant" "hello" (some 7) 6 "m2").1)
        "s1" 70 (1 / 2) none 8) "s1").map
      (fun s => (s.totalTokens, s.totalCost,
        s.messages.map (fun m => (m.role, m.content, m.tokens)))) =
    some (70, (1 / 2 : ℚ), [("user", "hi", (none : Option Int)),
                            ("assistant", "hello", some 7)]) :=
  ⟨by decide,
   C7_roundtrip "claude-sonnet-4-20250514" "hi" "hello" none 7 70 (1 / 2)
     4 5 6 8 "s1" "m1" "m2" (by decide)⟩

/-! ## C8: stats accumulation and first-write-only title -/

theorem orElse_none (a : Option String) : a.orElse (fun _ => none) = a := by
  cases a <;> rfl

theorem orElse_assoc (a : Option String) (f g : Unit → Option String) :
    (a.orElse f).orElse g = a.orElse (fun _ => (f ()).orElse g) := by
  cases a <;> rfl

/-- Accumulation over a single-session store. -/
theorem applyStats_single (calls : List StatsCall) :
    ∀ (row : SessionRow) (msgs : List MessageRow),
    applyStats row.id { sessions := [row], messages := msgs } calls =
      { sessions := [{ row with
          totalTokens := row.totalTokens + sumTokens calls,
          totalCost := row.totalCost + sumCost calls,
          updatedAt := lastUpdated row.updatedAt calls,
          title := row.title.orElse (fun _ => firstTruthyTitle calls) }],
        messages := msgs } := by
  induction calls with
  | nil =>
    intro row msgs
    simp [applyStats, sumTokens, sumCost, firstTruthyTitle, lastUpdated, orElse_none]
  | cons c rest ih =>
    intro row msgs
    cases hTitle : titleTruthy c.title with
    | true =>
      have hstep : updateSessionStats { sessions := [row], messages := msgs }
          row.id c.tokens c.cost c.title c.now =
          { sessions := [{ row with
              totalTokens := row.totalTokens + c.tokens,
              totalCost := row.totalCost + c.cost,
              updatedAt := c.now,
              title := row.title.orElse (fun _ => c.title) }],
            messages := msgs } := by
        simp [updateSessionStats, hTitle]
      have hct : c.title.orElse (fun _ => firstTruthyTitle rest) = c.title := by
        cases hc : c.title with
        | none => rw [hc] at hTitle; simp [titleTruthy] at hTitle
        | some t => rfl
      calc applyStats row.id { sessions := [row], messages := msgs } (c :: rest)
          = applyStats row.id (updateSessionStats { sessions := [row], messages := msgs }
              row.id c.tokens c.cost c.title c.now) rest := rfl
        _ = _ := by
            rw [hstep]
            have := ih { row with
              totalTokens := row.totalTokens + c.tokens,
              totalCost := row.totalCost + c.cost,
              updatedAt := c.now,
              title := row.title.orElse (fun _ => c.title) } msgs
            simp only at this
            rw [this]
            simp [sumTokens, sumCost, firstTruthyTitle, lastUpdated, hTitle,
                  add_assoc, orElse_assoc, hct]
    | false =>
      have hstep : updateSessionStats { sessions := [row], messages := msgs }
          row.id c.tokens c.cost c.title c.now =
          { sessions := [{ row with
              totalTokens := row.totalTokens + c.tokens,
              totalCost := row.totalCost + c.cost,
              updatedAt := c.now }],
            messages := msgs } := by
        simp [updateSessionStats, hTitle]
      calc applyStats row.id { sessions := [row], messages := msgs } (c :: rest)
          = applyStats row.id (updateSessionStats { sessions := [row], messages := msgs }
              row.id c.tokens c.cost c.title c.now) rest := rfl
        _ = _ := by
            rw [hstep]
            have := ih { row with
              totalTokens := row.totalTokens + c.tokens,
              totalCost := row.totalCost + c.cost,
              updatedAt := c.now } msgs
            simp only at this
            rw [this]
            simp [sumTokens, sumCost, firstTruthyTitle, lastUpdated, hTitle, add_assoc]

/-- C8 counterexample: a first call supplying the empty-string title is
ignored (JS truthiness), so a later call's title wins — the session's
title is not the title argument of the first call that supplied one. -/
theorem C8_counterexample :
    ((applyStats "s" ((createSession emptyStore "m" none 0 "s").1)
        [⟨1, 0, some "", 1⟩, ⟨1, 0, some "B", 2⟩]).sessions.map
      (fun s => s.title)) = [some "B"]
    ∧ ¬ (((applyStats "s" ((createSession emptyStore "m" none 0 "s").1)
        [⟨1, 0, some "", 1⟩, ⟨1, 0, some "B", 2⟩]).sessions.map
      (fun s => s.title)) = [some ""]) := by
  constructor <;> decide

/-- C8 (amended): over any sequence of `updateSessionStats` calls on a
fresh session, `total_tokens` and `total_cost` accumulate additively, and
the title equals the title argument of the first call that supplied a
non-empty title (calls passing no title or an empty one are skipped);
once set it is never overwritten. -/
theorem C8_amended (model : String) (cwd : Option String) (t0 : Nat) (sid : String)
    (calls : List StatsCall) :
    ((applyStats sid ((createSession emptyStore model cwd t0 sid).1) calls).sessions.map
      (fun s => (s.totalTokens, s.totalCost, s.title))) =
    [(sumTokens calls, sumCost calls, firstTruthyTitle calls)] := by
  have h := applyStats_single calls
    { id := sid, sdkSessionId := none, createdAt := t0, updatedAt := t0,
      model := model, totalTokens := 0, totalCost := 0, cwd := cwd, title := none }
    []
  simp only [createSession, emptyStore, List.nil_append]
  rw [h]
  simp


theorem jsSliceFrom_append (t u : String) : jsSliceFrom (t ++ u) t.length = u := by
  have h1 : (t ++ u).data = t.data ++ u.data := String.data_append t u
  simp only [jsSliceFrom, h1]
  have h2 : t.length = t.data.length := rfl
  rw [h2, List.drop_left]

theorem append_eq_empty_iff (t u : String) : t ++ u = "" ↔ t = "" ∧ u = "" := by
  constructor
  · intro h
    have hd := congrArg String.data h
    rw [String.data_append] at hd
    have := List.append_eq_nil.mp hd
    exact ⟨by cases t; simp_all, by cases u; simp_all⟩
  · rintro ⟨rfl, rfl⟩
    rfl

theorem procText_empty (st : StreamState) :
    procText false st (ContentBlock.text "") = (st, []) := by
  simp [procText]

theorem procText_same (st : StreamState) (s : String) (hs : s ≠ "")
    (hT : st.hasShownTools = false) (heq : s = st.lastShownText) :
    procText false st (ContentBlock.text s) = ({ st with fullText := s }, []) := by
  simp [procText, hs, hT, heq]
  intro h0
  exact absurd (heq.trans h0) hs

theorem procText_grow (st : StreamState) (s u : String) (hs : s ≠ "")
    (hT : st.hasShownTools = false) (hneq : ¬(s = st.lastShownText))
    (hu : s = st.lastShownText ++ u) (hune : u ≠ "") :
    procText false st (ContentBlock.text s) =
      ({ st with fullText := s, lastShownText := s }, [TermOut.write u]) := by
  have hslice : jsSliceFrom s st.lastShownText.length = u := by
    rw [hu]; exact jsSliceFrom_append _ _
  simp [procText, hs, hT, hneq, hslice, hune]

theorem pam_single_text (colorOn : Bool) (st : StreamState) (s : String) :
    processAssistantMessage false colorOn [ContentBlock.text s] st =
      ((procText false st (ContentBlock.text s)).1,
       (procText false st (ContentBlock.text s)).2) := by
  simp [processAssistantMessage, foldProc, procTool]

theorem stream_cons (colorOn : Bool) (st : StreamState) (s : String)
    (rest : List String) :
    processAssistantStream false colorOn st
        ((s :: rest).map (fun x => [ContentBlock.text x])) =
      ((processAssistantStream false colorOn
          (processAssistantMessage false colorOn [ContentBlock.text s] st).1
          (rest.map (fun x => [ContentBlock.text x]))).1,
       (processAssistantMessage false colorOn [ContentBlock.text s] st).2 ++
       (processAssistantStream false colorOn
          (processAssistantMessage false colorOn [ContentBlock.text s] st).1
          (rest.map (fun x => [ContentBlock.text x]))).2) := rfl

/-- Invariant for a tool-free stream of cumulative text snapshots. -/
theorem streamText_invariant (texts : List String) :
    ∀ (st : StreamState) (colorOn : Bool),
    st.hasShownTools = false →
    PrefixChain (st.lastShownText :: texts) →
    st.lastShownText ++ writesOf (processAssistantStream false colorOn st
        (texts.map (fun s => [ContentBlock.text s]))).2 =
      lastSnap st.lastShownText texts
    ∧ (processAssistantStream false colorOn st
        (texts.map (fun s => [ContentBlock.text s]))).1.lastShownText =
      lastSnap st.lastShownText texts
    ∧ (processAssistantStream false colorOn st
        (texts.map (fun s => [ContentBlock.text s]))).1.hasShownTools = false := by
  induction texts with
  | nil =>
    intro st colorOn hT _
    refine ⟨?_, rfl, hT⟩
    show st.lastShownText ++ "" = st.lastShownText
    simp
  | cons s rest ih =>
    intro st colorOn hT hchain
    obtain ⟨⟨u, hu⟩, hrest⟩ := hchain
    rw [stream_cons]
    by_cases hs : s = ""
    · subst hs
      obtain ⟨hl, -⟩ := (append_eq_empty_iff _ _).mp hu.symm
      rw [pam_single_text, procText_empty]
      have hres := ih st colorOn hT (by rw [hl]; exact hrest)
      refine ⟨?_, ?_, hres.2.2⟩
      · show st.lastShownText ++ writesOf ([] ++ _) = lastSnap "" rest
        rw [List.nil_append, ← hl]
        exact hres.1
      · show _ = lastSnap "" rest
        rw [← hl]
        exact hres.2.1
    · by_cases heq : s = st.lastShownText
      · subst heq
        rw [pam_single_text, procText_same st st.lastShownText hs hT rfl]
        have hres := ih { st with fullText := st.lastShownText } colorOn hT hrest
        refine ⟨?_, ?_, hres.2.2⟩
        · show st.lastShownText ++ writesOf ([] ++ _) = lastSnap st.lastShownText rest
          rw [List.nil_append]
          exact hres.1
        · exact hres.2.1
      · have hune : u ≠ "" := by
          intro h0
          rw [h0] at hu
          simp at hu
          exact heq hu
        rw [pam_single_text, procText_grow st s u hs hT heq hu hune]
        have hT1 : ({ st with fullText := s, lastShownText := s } :
            StreamState).hasShownTools = false := hT
        have hres := ih { st with fullText := s, lastShownText := s } colorOn hT1
          (by show PrefixChain (s :: rest); exact hrest)
        refine ⟨?_, ?_, hres.2.2⟩
        · show st.lastShownText ++ writesOf ([TermOut.write u] ++ _) = lastSnap s rest
          rw [show ∀ o, writesOf ([TermOut.write u] ++ o) = u ++ writesOf o
              from fun o => rfl]
          rw [← String.append_assoc, ← hu]
          exact hres.1
        · exact hres.2.1

/-- C4: over a tool-free stream of cumulative snapshots, each a prefix of
the next, the concatenation of the live-written deltas equals the final
snapshot (no character is ever written twice). -/
theorem C4_prefix_monotonic (texts : List String) (colorOn : Bool)
    (hne : texts ≠ []) (hchain : PrefixChain texts) :
    some (writesOf (processAssistantStream false colorOn initState
      (texts.map (fun s => [ContentBlock.text s]))).2) = texts.getLast? := by
  have hchain0 : PrefixChain ("" :: texts) := by
    cases texts with
    | nil => trivial
    | cons t ts => exact ⟨⟨t, by simp⟩, hchain⟩
  have h := (streamText_invariant texts initState colorOn rfl hchain0).1
  have hlast : ∀ (l : String) (ts : List String), ts ≠ [] →
      (ts.getLast? = some (lastSnap l ts)) := by
    intro l ts
    induction ts generalizing l with
    | nil => intro h0; exact absurd rfl h0
    | cons a as ihl =>
      intro _
      cases as with
      | nil => rfl
      | cons b bs =>
        rw [List.getLast?_cons_cons]
        exact ihl a (by simp)
  rw [hlast "" texts hne]
  exact congrArg some h

/-- C4 witness: the chain ["ab", "abc"] writes exactly "abc". -/
theorem C4_witness :
    PrefixChain ["ab", "abc"]
    ∧ some (writesOf (processAssistantStream false false initState
        [[ContentBlock.text "ab"], [ContentBlock.text "abc"]]).2) =
      (["ab", "abc"] : List String).getLast? := by
  have hchain : PrefixChain ["ab", "abc"] := ⟨⟨"c", rfl⟩, trivial⟩
  exact ⟨hchain, C4_prefix_monotonic ["ab", "abc"] false (by simp) hchain⟩

/-! ## C3: tool-call dedup -/

theorem countLog_append (a b : List TermOut) (line : String) :
    countLog (a ++ b) line = countLog a line + countLog b line := by
  induction a with
  | nil => simp [countLog]
  | cons x rest ih =>
    cases x with
    | write s => simp [countLog, ih]
    | logLine s => simp [countLog, ih, Nat.add_assoc]

theorem formatToolCall_ne_empty (colorOn : Bool) (name : String) (input : JsonObj) :
    formatToolCall colorOn name input ≠ "" := by
  intro h
  have hlen := congrArg String.length h
  simp only [formatToolCall, String.length_append] at hlen
  have h2 : ("  " : String).length = 2 := rfl
  have h1 : (" " : String).length = 1 := rfl
  have h0 : ("" : String).length = 0 := rfl
  rw [h2, h1, h0] at hlen
  omega

/-- Unfolding lemma: `foldProc` over one block. -/
theorem foldProc_cons (f : StreamState → ContentBlock → StreamState × List TermOut)
    (st : StreamState) (b : ContentBlock) (rest : List ContentBlock) :
    foldProc f st (b :: rest) =
      ((foldProc f (f st b).1 rest).1, (f st b).2 ++ (foldProc f (f st b).1 rest).2) := rfl

/-- Unfolding lemma for `processAssistantMessage`. -/
theorem pam_eq (q c : Bool) (bs : List ContentBlock) (st : StreamState) :
    processAssistantMessage q c bs st =
      ((foldProc (procTool q c) (foldProc (procText q) st bs).1 bs).1,
       (foldProc (procText q) st bs).2 ++
       (foldProc (procTool q c) (foldProc (procText q) st bs).1 bs).2) := rfl

/-- Unfolding lemma: `processAssistantStream` over one message. -/
theorem stream_cons_eq (q c : Bool) (st : StreamState) (m : List ContentBlock)
    (rest : List (List ContentBlock)) :
    processAssistantStream q c st (m :: rest) =
      ((processAssistantStream q c (processAssistantMessage q c m st).1 rest).1,
       (processAssistantMessage q c m st).2 ++
       (processAssistantStream q c (processAssistantMessage q c m st).1 rest).2) := rfl

/-- The text pass never touches the tool state and logs no lines. -/
theorem foldText_preserves (q : Bool) (bs : List ContentBlock) :
    ∀ st : StreamState,
    (foldProc (procText q) st bs).1.toolCount = st.toolCount
    ∧ (foldProc (procText q) st bs).1.seenTools = st.seenTools
    ∧ (foldProc (procText q) st bs).1.hasShownTools = st.hasShownTools
    ∧ ∀ line, countLog (foldProc (procText q) st bs).2 line = 0 := by
  induction bs with
  | nil => intro st; exact ⟨rfl, rfl, rfl, fun _ => rfl⟩
  | cons b rest ih =>
    intro st
    have hb : (procText q st b).1.toolCount = st.toolCount
        ∧ (procText q st b).1.seenTools = st.seenTools
        ∧ (procText q st b).1.hasShownTools = st.hasShownTools
        ∧ ∀ line, countLog (procText q st b).2 line = 0 := by
      cases b with
      | toolUse n i => exact ⟨rfl, rfl, rfl, fun _ => rfl⟩
      | text s =>
        simp only [procText]
        split
        · split
          · refine ⟨rfl, rfl, rfl, fun line => ?_⟩
            split <;> simp [countLog]
          · exact ⟨rfl, rfl, rfl, fun _ => rfl⟩
        · exact ⟨rfl, rfl, rfl, fun _ => rfl⟩
    have hr := ih (procText q st b).1
    refine ⟨?_, ?_, ?_, ?_⟩
    · show (foldProc (procText q) (procText q st b).1 rest).1.toolCount = st.toolCount
      rw [hr.1, hb.1]
    · show (foldProc (procText q) (procText q st b).1 rest).1.seenTools = st.seenTools
      rw [hr.2.1, hb.2.1]
    · show (foldProc (procText q) (procText q st b).1 rest).1.hasShownTools =
        st.hasShownTools
      rw [hr.2.2.1, hb.2.2.1]
    · intro line
      show countLog ((procText q st b).2 ++
        (foldProc (procText q) (procText q st b).1 rest).2) line = 0
      rw [countLog_append, hb.2.2.2 line, hr.2.2.2 line]

/-- The tool pass is a no-op once the key has been seen. -/
theorem foldTool_absorbed (colorOn : Bool) (name : String) (input : JsonObj)
    (bs : List ContentBlock) :
    ∀ st : StreamState,
    (∀ b ∈ bs, blockKeyed name input b = true) →
    toolKey name input ∈ st.seenTools →
    foldProc (procTool false colorOn) st bs = (st, []) := by
  induction bs with
  | nil => intro st _ _; rfl
  | cons b rest ih =>
    intro st hok hseen
    have hrest := fun b hb => hok b (List.mem_cons_of_mem _ hb)
    cases b with
    | text s =>
      show foldProc (procTool false colorOn) st (ContentBlock.text s :: rest) = (st, [])
      have : procTool false colorOn st (ContentBlock.text s) = (st, []) := rfl
      simp [foldProc, this, ih st hrest hseen]
    | toolUse n i =>
      have hk := hok (ContentBlock.toolUse n i) (List.mem_cons_self _ _)
      simp only [blockKeyed, Bool.and_eq_true, beq_iff_eq] at hk
      obtain ⟨rfl, rfl⟩ := hk
      have hstep : procTool false colorOn st (ContentBlock.toolUse n i) =
          (st, []) := by
        simp [procTool, hseen]
      simp [foldProc, hstep, ih st hrest hseen]

/-- The tool pass over an all-text block list is a no-op. -/
theorem foldTool_noTool (colorOn : Bool) (bs : List ContentBlock) :
    ∀ st : StreamState,
    bs.any hasToolBlock = false →
    foldProc (procTool false colorOn) st bs = (st, []) := by
  induction bs with
  | nil => intro st _; rfl
  | cons b rest ih =>
    intro st hno
    simp only [List.any_cons, Bool.or_eq_false_iff] at hno
    cases b with
    | toolUse n i => simp [hasToolBlock] at hno
    | text s =>
      have : procTool false colorOn st (ContentBlock.text s) = (st, []) := rfl
      simp [foldProc, this, ih st hno.2]

/-- First sighting: the tool pass prints the line once, counts once, and
marks the key seen. -/
theorem foldTool_trigger (colorOn : Bool) (name : String) (input : JsonObj)
    (bs : List ContentBlock) :
    ∀ st : StreamState,
    (∀ b ∈ bs, blockKeyed name input b = true) →
    toolKey name input ∉ st.seenTools →
    bs.any hasToolBlock = true →
    (foldProc (procTool false colorOn) st bs).1.toolCount = st.toolCount + 1
    ∧ toolKey name input ∈ (foldProc (procTool false colorOn) st bs).1.seenTools
    ∧ countLog (foldProc (procTool false colorOn) st bs).2
        (formatToolCall colorOn name input) = 1 := by
  induction bs with
  | nil => intro st _ _ h; simp at h
  | cons b rest ih =>
    intro st hok hseen hany
    have hrest := fun b hb => hok b (List.mem_cons_of_mem _ hb)
    cases b with
    | text s =>
      have hany2 : rest.any hasToolBlock = true := by
        simpa [hasToolBlock] using hany
      have hstep : procTool false colorOn st (ContentBlock.text s) = (st, []) := rfl
      have hr := ih st hrest hseen hany2
      rw [foldProc_cons, hstep]
      refine ⟨hr.1, hr.2.1, ?_⟩
      rw [show ((st, ([] : List TermOut)).2 ++
          (foldProc (procTool false colorOn) (st, ([] : List TermOut)).1 rest).2) =
          (foldProc (procTool false colorOn) st rest).2 from List.nil_append _]
      exact hr.2.2
    | toolUse n i =>
      have hk := hok (ContentBlock.toolUse n i) (List.mem_cons_self _ _)
      simp only [blockKeyed, Bool.and_eq_true, beq_iff_eq] at hk
      obtain ⟨rfl, rfl⟩ := hk
      -- the block fires
      have hstep : procTool false colorOn st (ContentBlock.toolUse n i) =
          ({ st with seenTools := st.seenTools ++ [toolKey n i],
                     hasShownTools := true, toolCount := st.toolCount + 1 },
           (if !st.hasShownTools && st.lastShownText ≠ "" then
              [TermOut.logLine ""] else []) ++
           [TermOut.logLine (formatToolCall colorOn n i)]) := by
        simp only [procTool]
        rw [if_neg (by simpa using hseen)]
        simp
      have hmem : toolKey n i ∈
          ({ st with seenTools := st.seenTools ++ [toolKey n i],
                     hasShownTools := true, toolCount := st.toolCount + 1 } :
            StreamState).seenTools := by
        simp
      have habs := foldTool_absorbed colorOn n i rest
        { st with seenTools := st.seenTools ++ [toolKey n i],
                  hasShownTools := true, toolCount := st.toolCount + 1 }
        hrest hmem
      rw [foldProc_cons, hstep, habs]
      refine ⟨rfl, hmem, ?_⟩
      rw [countLog_append, countLog_append]
      have hne : ¬("" = formatToolCall colorOn n i) := by
        intro h0
        exact formatToolCall_ne_empty colorOn n i h0.symm
      split <;> simp [countLog, hne]

/-- Stream level: once seen, no further line and no further count. -/
theorem stream_absorbed (colorOn : Bool) (name : String) (input : JsonObj)
    (msgs : List (List ContentBlock)) :
    ∀ st : StreamState,
    (∀ bs ∈ msgs, ∀ b ∈ bs, blockKeyed name input b = true) →
    toolKey name input ∈ st.seenTools →
    (processAssistantStream false colorOn st msgs).1.toolCount = st.toolCount
    ∧ countLog (processAssistantStream false colorOn st msgs).2
        (formatToolCall colorOn name input) = 0 := by
  induction msgs with
  | nil => intro st _ _; exact ⟨rfl, rfl⟩
  | cons m rest ih =>
    intro st hok hseen
    have hm := hok m (List.mem_cons_self _ _)
    have hrest := fun bs hb => hok bs (List.mem_cons_of_mem _ hb)
    have htext := foldText_preserves false m st
    have htool := foldTool_absorbed colorOn name input m
      (foldProc (procText false) st m).1 hm (htext.2.1 ▸ hseen)
    rw [stream_cons_eq, pam_eq]
    rw [htool]
    have hr := ih (foldProc (procText false) st m).1 hrest (htext.2.1 ▸ hseen)
    constructor
    · rw [hr.1, htext.1]
    · rw [countLog_append, countLog_append, hr.2,
        htext.2.2.2 (formatToolCall colorOn name input)]
      rfl

/-- Stream level: the first tool sighting counts exactly once. -/
theorem stream_trigger (colorOn : Bool) (name : String) (input : JsonObj)
    (msgs : List (List ContentBlock)) :
    ∀ st : StreamState,
    (∀ bs ∈ msgs, ∀ b ∈ bs, blockKeyed name input b = true) →
    toolKey name input ∉ st.seenTools →
    msgs.any (fun bs => bs.any hasToolBlock) = true →
    (processAssistantStream false colorOn st msgs).1.toolCount = st.toolCount + 1
    ∧ countLog (processAssistantStream false colorOn st msgs).2
        (formatToolCall colorOn name input) = 1 := by
  induction msgs with
  | nil => intro st _ _ h; simp at h
  | cons m rest ih =>
    intro st hok hseen hany
    have hm := hok m (List.mem_cons_self _ _)
    have hrest := fun bs hb => hok bs (List.mem_cons_of_mem _ hb)
    have htext := foldText_preserves false m st
    rw [stream_cons_eq, pam_eq]
    cases hmt : m.any hasToolBlock with
    | true =>
      have htool := foldTool_trigger colorOn name input m
        (foldProc (procText false) st m).1 hm (htext.2.1 ▸ hseen) hmt
      have habs := stream_absorbed colorOn name input rest
        (foldProc (procTool false colorOn) (foldProc (procText false) st m).1 m).1
        hrest htool.2.1
      constructor
      · rw [habs.1, htool.1, htext.1]
      · rw [countLog_append, countLog_append, habs.2,
          htext.2.2.2 (formatToolCall colorOn name input), htool.2.2]
    | false =>
      have hany2 : rest.any (fun bs => bs.any hasToolBlock) = true := by
        simpa [hmt] using hany
      have htool := foldTool_noTool colorOn m (foldProc (procText false) st m).1 hmt
      rw [htool]
      have hr := ih (foldProc (procText false) st m).1 hrest (htext.2.1 ▸ hseen) hany2
      constructor
      · rw [hr.1, htext.1]
      · rw [countLog_append, countLog_append, hr.2,
          htext.2.2.2 (formatToolCall colorOn name input)]
        rfl

/-- C3: for a stream whose tool_use blocks all carry the same
(name, input) pair, repeated across any number of assistant messages of
the turn, the tool line is printed exactly once and `toolCount` rises by
exactly one. -/
theorem C3_dedup (msgs : List (List ContentBlock)) (colorOn : Bool)
    (name : String) (input : JsonObj)
    (hok : ∀ bs ∈ msgs, ∀ b ∈ bs, blockKeyed name input b = true)
    (hsome : ∃ bs ∈ msgs, ∃ b ∈ bs, hasToolBlock b = true) :
    (processAssistantStream false colorOn initState msgs).1.toolCount = 1
    ∧ countLog (processAssistantStream false colorOn initState msgs).2
        (formatToolCall colorOn name input) = 1 := by
  have hany : msgs.any (fun bs => bs.any hasToolBlock) = true := by
    simp only [List.any_eq_true]
    obtain ⟨bs, hbs, b, hb, hbt⟩ := hsome
    exact ⟨bs, hbs, b, hb, hbt⟩
  have h := stream_trigger colorOn name input msgs initState hok (by simp [initState]) hany
  exact ⟨h.1, h.2⟩

/-- C3 witness: the same Grep tool_use block in two successive assistant
snapshots is shown and counted once. -/
theorem C3_witness :
    (processAssistantStream false false initState
      [[ContentBlock.toolUse "Grep" grepTodoInput],
       [ContentBlock.toolUse "Grep" grepTodoInput]]).1.toolCount = 1
    ∧ countLog (processAssistantStream false false initState
      [[ContentBlock.toolUse "Grep" grepTodoInput],
       [ContentBlock.toolUse "Grep" grepTodoInput]]).2
        (formatToolCall false "Grep" grepTodoInput) = 1 :=
  C3_dedup [[ContentBlock.toolUse "Grep" grepTodoInput],
            [ContentBlock.toolUse "Grep" grepTodoInput]] false "Grep" grepTodoInput
    (by decide) (by decide)


mutual
theorem tokenSyncEqNested (t : MToken) (h : tokenNoCode t = true) :
    renderTokenSyncD t = renderNestedD t := by
  cases t with
  | code s lang => simp [tokenNoCode] at h
  | heading depth text => rfl
  | paragraph text => rfl
  | blockquote ts =>
    have hts : tokensNoCode ts = true := by simpa [tokenNoCode] using h
    show blockquoteWrap (renderTokensSyncD ts) = blockquoteWrap (renderNestedsD ts)
    rw [tokensSyncEqNested ts hts]
  | mdlist ordered items =>
    have hit : itemsNoCode items = true := by simpa [tokenNoCode] using h
    show listWrap ordered (renderItemsSyncD items) =
      listWrap ordered (renderNestedItemsD items)
    rw [itemsSyncEqNested items hit]
  | listItem ts =>
    have hts : tokensNoCode ts = true := by simpa [tokenNoCode] using h
    show renderTokensSyncD ts = renderNestedsD ts
    exact tokensSyncEqNested ts hts
  | hr => rfl
  | space => rfl
  | text s => rfl
  | textWith s ts =>
    have hts : tokensNoCode ts = true := by simpa [tokenNoCode] using h
    show renderTokensSyncD ts = renderNestedsD ts
    exact tokensSyncEqNested ts hts
  | strong s => rfl
  | em s => rfl
  | codespan s => rfl
  | link s href => rfl
  | other tf => cases tf <;> rfl

theorem tokensSyncEqNested (ts : MTokens) (h : tokensNoCode ts = true) :
    renderTokensSyncD ts = renderNestedsD ts := by
  cases ts with
  | nil => rfl
  | cons t rest =>
    have h2 : tokenNoCode t = true ∧ tokensNoCode rest = true := by
      simpa [tokensNoCode] using h
    show renderTokenSyncD t ++ renderTokensSyncD rest =
      renderNestedD t ++ renderNestedsD rest
    rw [tokenSyncEqNested t h2.1, tokensSyncEqNested rest h2.2]

theorem itemsSyncEqNested (items : MItems) (h : itemsNoCode items = true) :
    renderItemsSyncD items = renderNestedItemsD items := by
  cases items with
  | nil => rfl
  | cons item rest =>
    have h2 : tokensNoCode item = true ∧ itemsNoCode rest = true := by
      simpa [itemsNoCode] using h
    show renderTokensSyncD item :: renderItemsSyncD rest =
      renderNestedsD item :: renderNestedItemsD rest
    rw [tokensSyncEqNested item h2.1, itemsSyncEqNested rest h2.2]
end


theorem tokenAsyncEqNested (codeToAnsi : String → String → String) (t : MToken)
    (h : tokenNoCode t = true) :
    renderTokenAsyncD codeToAnsi t = renderNestedD t := by
  cases t with
  | code s lang => simp [tokenNoCode] at h
  | heading depth text => rfl
  | paragraph text => rfl
  | blockquote ts => rfl
  | mdlist ordered items => rfl
  | listItem ts => rfl
  | hr => rfl
  | space => rfl
  | text s => rfl
  | textWith s ts => rfl
  | strong s => rfl
  | em s => rfl
  | codespan s => rfl
  | link s href => rfl
  | other tf => rfl

theorem tokensAsyncEqSync (codeToAnsi : String → String → String) :
    ∀ ts : MTokens, tokensNoCode ts = true →
    renderTokensAsyncD codeToAnsi ts = renderTokensSyncD ts
  | MTokens.nil, _ => rfl
  | MTokens.cons t rest, h => by
    have h2 : tokenNoCode t = true ∧ tokensNoCode rest = true := by
      simpa [tokensNoCode] using h
    show renderTokenAsyncD codeToAnsi t ++ renderTokensAsyncD codeToAnsi rest =
      renderTokenSyncD t ++ renderTokensSyncD rest
    rw [tokenAsyncEqNested codeToAnsi t h2.1, ← tokenSyncEqNested t h2.1,
        tokensAsyncEqSync codeToAnsi rest h2.2]

/-- C9: on markdown whose token stream contains no fenced code block, the
async `render` and the sync `renderSync` produce identical output. -/
theorem C9_render_equiv (codeToAnsi : String → String → String)
    (lex : String → MTokens) (markdown : String)
    (h : tokensNoCode (lex (escapeFilenameUnderscores markdown)) = true) :
    render codeToAnsi lex markdown = renderSync lex markdown := by
  unfold render renderSync
  rw [tokensAsyncEqSync codeToAnsi _ h]

/-- C9 witness: a one-paragraph document. -/
theorem C9_witness :
    (tokensNoCode ((fun _ : String => MTokens.cons (MToken.paragraph "hello") MTokens.nil)
        (escapeFilenameUnderscores "hello")) = true)
    ∧ render (fun _ _ => "") (fun _ => MTokens.cons (MToken.paragraph "hello") MTokens.nil)
        "hello" =
      renderSync (fun _ => MTokens.cons (MToken.paragraph "hello") MTokens.nil) "hello" :=
  ⟨by decide, C9_render_equiv (fun _ _ => "")
    (fun _ => MTokens.cons (MToken.paragraph "hello") MTokens.nil) "hello" (by decide)⟩

end Q
